import Mathlib

/-!
Verification development for `gh-action-trace` (`src/main.rs`).

The program converts GitHub Actions workflow metadata into OpenTelemetry
traces.  This file gives a shallow embedding of the core logic:

* the identifier derivation used at `main.rs:142-149`
  (`SpanId::from_hex(job.id.to_string())`, `TraceId::from_hex(run.id.to_string())`,
  where the opentelemetry 0.16 `from_hex` is
  `u64::from_str_radix(hex, 16).unwrap_or(0)`, resp. `u128` for trace ids);
* the attribute conversion `value_to_vec` at `main.rs:233-243`;
* the per-run span construction loop of `process_workflow` at `main.rs:123-183`
  (including the `last_end_time` reconciliation at `main.rs:137-165`);
* the pagination loop `retrieve_runs` at `main.rs:188-229`.

Machine integers are modelled as `Nat` with explicit `% 2 ^ 32` / `2 ^ 64`
bounds where overflow matters; Rust panics (`unwrap` on `None` / non-object
JSON) are modelled as `Except.error` values of type `Panic`; timestamps are
modelled as naturals with their order.
-/

/-- Little-endian decimal digit sequence of `n`, with explicit fuel so the
function is structurally recursive and kernel-evaluable.  Models the digit
string produced by Rust's `n.to_string()` (read least-significant first;
the value-level treatment of `0` as the empty digit list is equivalent for
every consumer below, which only reads the digits through their value). -/
def decDigitsAux : Nat → Nat → List Nat
  | 0, _ => []
  | _ + 1, 0 => []
  | fuel + 1, n + 1 => (n + 1) % 10 :: decDigitsAux fuel ((n + 1) / 10)

/-- Little-endian decimal digits of `n` (fuel instantiated). -/
def decDigits (n : Nat) : List Nat := decDigitsAux n n

/-- Value of a little-endian digit list read in base 16.  Models the
accumulation performed by Rust's `u64::from_str_radix(s, 16)` /
`u128::from_str_radix(s, 16)` when `s` is a digit string. -/
def hexVal : List Nat → Nat
  | [] => 0
  | d :: ds => d + 16 * hexVal ds

/-- `SpanId::from_hex(id.to_string())` from opentelemetry 0.16:
`u64::from_str_radix(id.to_string(), 16).unwrap_or(0)`.  The parse fails
exactly when the accumulated value does not fit in a `u64`, in which case
the code falls back to `0`. -/
def from_hex64 (id : Nat) : Nat :=
  if hexVal (decDigits id) < 2 ^ 64 then hexVal (decDigits id) else 0

/-- `TraceId::from_hex(id.to_string())` from opentelemetry 0.16, the
`u128` analogue of `from_hex64`. -/
def from_hex128 (id : Nat) : Nat :=
  if hexVal (decDigits id) < 2 ^ 128 then hexVal (decDigits id) else 0

/-- Big-endian byte sequence of width `w` of the number `n`
(most-significant byte first), as in `u64::to_be_bytes` /
`u128::to_be_bytes`: the wire representation of span and trace ids. -/
def bytesBE : Nat → Nat → List Nat
  | 0, _ => []
  | w + 1, n => n / 256 ^ w % 256 :: bytesBE w n

/-- The 8-byte span identifier the program derives for an entity id
(`main.rs:144-146` and `171-173`). -/
def spanIdOf (id : Nat) : List Nat := bytesBE 8 (from_hex64 id)

/-- The 16-byte trace identifier the program derives for a run id
(`main.rs:147-149` and `174-176`). -/
def traceIdOf (id : Nat) : List Nat := bytesBE 16 (from_hex128 id)

/-- The span identifier claimed by the specification: the 8-byte
big-endian encoding of the numeric id itself. -/
def spanIdSpec (id : Nat) : List Nat := bytesBE 8 id

/-- The trace identifier claimed by the specification: the big-endian
encoding of the numeric id, left-padded with zero bytes to 16 bytes. -/
def traceIdSpec (id : Nat) : List Nat := bytesBE 16 id

/-- The number obtained by re-reading the decimal digit string of `id` as
hexadecimal digits, stated independently of the embedding above via
Mathlib's digit machinery (used to describe what the code actually
computes). -/
def decimalAsHex (id : Nat) : Nat := Nat.ofDigits 16 (Nat.digits 10 id)

theorem decDigitsAux_eq_digits : ∀ fuel n, n ≤ fuel → decDigitsAux fuel n = Nat.digits 10 n := by
  intro fuel
  induction fuel with
  | zero =>
    intro n hn
    interval_cases n
    simp [decDigitsAux]
  | succ fuel ih =>
    intro n hn
    match n with
    | 0 => simp [decDigitsAux]
    | n + 1 =>
      have hdiv : (n + 1) / 10 ≤ fuel := by
        have h1 : (n + 1) / 10 < n + 1 := Nat.div_lt_self (Nat.succ_pos n) (by norm_num)
        omega
      rw [decDigitsAux, ih _ hdiv, ← Nat.digits_def' (by norm_num : (1 : Nat) < 10) (Nat.succ_pos n)]

theorem decDigits_eq_digits (n : Nat) : decDigits n = Nat.digits 10 n :=
  decDigitsAux_eq_digits n n le_rfl

theorem hexVal_eq_ofDigits : ∀ L, hexVal L = Nat.ofDigits 16 L := by
  intro L
  induction L with
  | nil => rfl
  | cons d ds ih => rw [hexVal, ih, Nat.ofDigits_cons]

theorem hexVal_decDigits_eq (n : Nat) : hexVal (decDigits n) = decimalAsHex n := by
  rw [hexVal_eq_ofDigits, decDigits_eq_digits, decimalAsHex]

/-- A number below `10 ^ k` has at most `k` decimal digits. -/
theorem digits_len_le_of_lt_pow {n k : Nat} (h : n < 10 ^ k) :
    (Nat.digits 10 n).length ≤ k := by
  rcases Nat.eq_zero_or_pos n with rfl | hn
  · simp
  · rw [Nat.digits_len 10 n (by norm_num) (Nat.pos_iff_ne_zero.mp hn)]
    have := (Nat.lt_pow_iff_log_lt (by norm_num : 1 < 10) (Nat.pos_iff_ne_zero.mp hn)).mp h
    omega

/-- Reading at most 16 decimal digits as hexadecimal stays below `2 ^ 64`. -/
theorem decimalAsHex_lt_of_lt {n k : Nat} (h : n < 10 ^ k) :
    decimalAsHex n < 16 ^ k := by
  have hlen : (Nat.digits 10 n).length ≤ k := digits_len_le_of_lt_pow h
  have hdig : ∀ d ∈ Nat.digits 10 n, d < 16 := fun d hd =>
    lt_trans (Nat.digits_lt_base (by norm_num) hd) (by norm_num)
  calc decimalAsHex n < 16 ^ (Nat.digits 10 n).length :=
        Nat.ofDigits_lt_base_pow_length (by norm_num) hdig
    _ ≤ 16 ^ k := Nat.pow_le_pow_right (by norm_num) hlen

theorem bytesBE_mod : ∀ w n m, bytesBE w n = bytesBE w m → n % 256 ^ w = m % 256 ^ w := by
  intro w
  induction w with
  | zero => intro n m _; omega
  | succ w ih =>
    intro n m h
    rw [bytesBE, bytesBE] at h
    have h1 : n / 256 ^ w % 256 = m / 256 ^ w % 256 := (List.cons.injEq _ _ _ _).mp h |>.1
    have h2 : n % 256 ^ w = m % 256 ^ w := ih n m ((List.cons.injEq _ _ _ _).mp h |>.2)
    rw [pow_succ, Nat.mod_mul, Nat.mod_mul, h1, h2]

theorem bytesBE_inj {w n m : Nat} (hn : n < 256 ^ w) (hm : m < 256 ^ w)
    (h : bytesBE w n = bytesBE w m) : n = m := by
  have := bytesBE_mod w n m h
  rwa [Nat.mod_eq_of_lt hn, Nat.mod_eq_of_lt hm] at this

/-- Distinct non-zero numbers keep distinct values when their decimal digit
strings are re-read as hexadecimal (the decimal digit string of a number is
unique, and digit lists over `0..9` are valid hexadecimal digit lists). -/
theorem decimalAsHex_inj {a b : Nat} (ha : a ≠ 0) (hb : b ≠ 0)
    (h : decimalAsHex a = decimalAsHex b) : a = b := by
  unfold decimalAsHex at h
  have hva : ∀ l ∈ Nat.digits 10 a, l < 16 := fun l hl =>
    lt_trans (Nat.digits_lt_base (by norm_num) hl) (by norm_num)
  have hvb : ∀ l ∈ Nat.digits 10 b, l < 16 := fun l hl =>
    lt_trans (Nat.digits_lt_base (by norm_num) hl) (by norm_num)
  have hda := Nat.digits_ofDigits 16 (by norm_num) (Nat.digits 10 a) hva
    (fun _ => Nat.getLast_digit_ne_zero 10 ha)
  have hdb := Nat.digits_ofDigits 16 (by norm_num) (Nat.digits 10 b) hvb
    (fun _ => Nat.getLast_digit_ne_zero 10 hb)
  have hd : Nat.digits 10 a = Nat.digits 10 b := by rw [← hda, h, hdb]
  have := congrArg (Nat.ofDigits 10) hd
  rwa [Nat.ofDigits_digits, Nat.ofDigits_digits] at this

/-- Model of `serde_json::Value` (object fields kept in iteration order). -/
inductive J where
  | null : J
  | bool : Bool → J
  | num : Int → J
  | str : String → J
  | arr : List J → J
  | obj : List (String × J) → J

/-- Hexadecimal digit characters as used by serde_json's escape table. -/
def hexDigitChar (n : Nat) : Char :=
  if n < 10 then Char.ofNat (48 + n) else Char.ofNat (87 + n)

/-- JSON string escaping of one character, following serde_json's writer. -/
def escChar (c : Char) : String :=
  if c = '"' then ("\\\"")
  else if c = '\\' then ("\\\\")
  else if c = '\x08' then ("\\b")
  else if c = '\x0c' then ("\\f")
  else if c = '\n' then ("\\n")
  else if c = '\r' then ("\\r")
  else if c = '\t' then ("\\t")
  else if c.toNat < 32 then
    ("\\u00") ++ String.mk [hexDigitChar (c.toNat / 16), hexDigitChar (c.toNat % 16)]
  else String.mk [c]

/-- JSON string escaping, applied characterwise. -/
def escapeStr (s : String) : String := String.join (s.data.map escChar)

mutual

/-- Compact JSON serialization of a value: the semantics of
`serde_json::Value::to_string()` (the `Display` instance), which is what
`value_to_vec` at `main.rs:240` stores as each attribute value. -/
def J.render : J → String
  | .null => ("null")
  | .bool true => ("true")
  | .bool false => ("false")
  | .num i => toString i
  | .str s => ("\"") ++ escapeStr s ++ ("\"")
  | .arr xs => ("[") ++ J.renderItems xs ++ ("]")
  | .obj fs => ("\x7b") ++ J.renderFields fs ++ ("\x7d")

/-- Comma-separated rendering of JSON array elements. -/
def J.renderItems : List J → String
  | [] => ("")
  | [x] => J.render x
  | x :: y :: xs => J.render x ++ (",") ++ J.renderItems (y :: xs)

/-- Comma-separated rendering of JSON object fields. -/
def J.renderFields : List (String × J) → String
  | [] => ("")
  | [(k, v)] => ("\"") ++ escapeStr k ++ ("\":") ++ J.render v
  | (k, v) :: y :: fs =>
    ("\"") ++ escapeStr k ++ ("\":") ++ J.render v ++ (",") ++ J.renderFields (y :: fs)

end

/-- Rust panics are modelled as recoverable-by-nobody `Except.error`s:
`unwrapNone` stands for `Option::unwrap` called on `None` (which aborts the
enclosing task). -/
inductive Panic where
  | unwrapNone : Panic
deriving DecidableEq

/-- `value_to_vec` at `main.rs:233-243`: `value.as_object().unwrap()` panics
on any non-object value; otherwise each field becomes one attribute with the
field name as key and the field's compact JSON text as value. -/
def value_to_vec : J → Except Panic (List (String × String))
  | J.obj fields => .ok (fields.map fun kv => (kv.1, J.render kv.2))
  | _ => .error .unwrapNone

/-- A workflow run summary as consumed by `process_workflow` (timestamps as
naturals). -/
structure Run where
  id : Nat
  name : String
  createdAt : Nat
deriving DecidableEq

/-- A job record as consumed by the span-building loop at `main.rs:140-167`. -/
structure Job where
  id : Nat
  name : String
  status : String
  startedAt : Option Nat
  completedAt : Option Nat
deriving DecidableEq

/-- A span as assembled by the `span_builder` chains at `main.rs:142-158`
and `main.rs:169-181`. -/
structure Span where
  name : String
  spanId : List Nat
  traceId : List Nat
  startTime : Nat
  endTime : Option Nat
  attributes : List (String × String)
  statusMessage : Option String
deriving DecidableEq

/-- serde serialization of a `Job` (`serde_json::to_value(&job)` at
`main.rs:151`): always a JSON object whose fields are the job's fields. -/
def jobToJson (j : Job) : J :=
  J.obj [(("id"), J.num (Int.ofNat j.id)),
         (("name"), J.str j.name),
         (("status"), J.str j.status),
         (("started_at"), match j.startedAt with
           | some t => J.num (Int.ofNat t)
           | none => J.null),
         (("completed_at"), match j.completedAt with
           | some t => J.num (Int.ofNat t)
           | none => J.null)]

/-- serde serialization of a `Run` (`serde_json::to_value(&run)` at
`main.rs:179`): always a JSON object. -/
def runToJson (r : Run) : J :=
  J.obj [(("id"), J.num (Int.ofNat r.id)),
         (("name"), J.str r.name),
         (("created_at"), J.num (Int.ofNat r.createdAt))]

/-- One job span, `main.rs:142-158`.  `job.started_at.unwrap()` at
`main.rs:150` panics when the job has not started; the end time is attached
only when `completed_at` is present (`main.rs:153-156`). -/
def buildJobSpan (runId : Nat) (j : Job) : Except Panic Span :=
  match j.startedAt with
  | none => .error .unwrapNone
  | some st => do
    let attrs ← value_to_vec (jobToJson j)
    .ok { name := j.name
          spanId := spanIdOf j.id
          traceId := traceIdOf runId
          startTime := st
          endTime := j.completedAt
          attributes := attrs
          statusMessage := some j.status }

/-- The `for job in ...` loop body of `main.rs:140-167`, span part: one span
per fetched job, in order; the first panic aborts the whole task. -/
def buildJobSpans (runId : Nat) : List Job → Except Panic (List Span)
  | [] => .ok []
  | j :: js => do
    let s ← buildJobSpan runId j
    let rest ← buildJobSpans runId js
    .ok (s :: rest)

/-- The `last_end_time` accumulation of `main.rs:137` and `main.rs:160-165`:
starts at `run.created_at` and is replaced by every strictly larger
`completed_at` encountered. -/
def last_end_time (run : Run) (jobs : List Job) : Nat :=
  jobs.foldl
    (fun acc j =>
      match j.completedAt with
      | some c => if acc < c then c else acc
      | none => acc)
    run.createdAt

/-- The run's effective end time, as the specification names it. -/
def effectiveEnd (run : Run) (jobs : List Job) : Nat := last_end_time run jobs

/-- The effective end time as the claim words it: the maximum `completedAt`
among the jobs that have one, and `run.createdAt` when no job has one. -/
def effectiveEndClaimed (run : Run) (jobs : List Job) : Nat :=
  match jobs.filterMap Job.completedAt with
  | [] => run.createdAt
  | t :: ts => ts.foldl max t

/-- The run span built at `main.rs:169-181` (no status message is set). -/
def buildRunSpan (run : Run) (jobs : List Job) : Except Panic Span := do
  let attrs ← value_to_vec (runToJson run)
  .ok { name := run.name
        spanId := spanIdOf run.id
        traceId := traceIdOf run.id
        startTime := run.createdAt
        endTime := some (last_end_time run jobs)
        attributes := attrs
        statusMessage := none }

/-- The `for run in runs` loop of `process_workflow`, `main.rs:123-183`,
parameterized by the external job-fetch collaborator.  A failed job fetch
prints and `continue`s (`main.rs:132-135`); a successful fetch contributes
its job spans followed by the run span; a panic inside span construction
aborts the rest of the task.  The returned list is the emission order. -/
def process_workflow (fetchJobs : Run → Except Unit (List Job)) :
    List Run → Except Panic (List Span)
  | [] => .ok []
  | run :: rest =>
    match fetchJobs run with
    | .error _ => process_workflow fetchJobs rest
    | .ok jobs => do
      let jobSpans ← buildJobSpans run.id jobs
      let runSpan ← buildRunSpan run jobs
      let restSpans ← process_workflow fetchJobs rest
      .ok (jobSpans ++ [runSpan] ++ restSpans)

/-- Wrapping `u32` subtraction: the semantics of `n - len` at `main.rs:223`
for `n < 2 ^ 32` in a release build (debug builds abort there instead). -/
def sub32 (n len : Nat) : Nat := (n + (2 ^ 32 - len % 2 ^ 32)) % 2 ^ 32

/-- The slice of a source list served for a 1-based `page` of size
`perPage`: the GitHub list-runs endpoint returns items
`(page-1)*perPage .. page*perPage` of the run history. -/
def pageSlice (src : List Nat) (page perPage : Nat) : List Nat :=
  (src.drop ((page - 1) * perPage)).take perPage

/-- The pagination loop `retrieve_runs` at `main.rs:188-229`, parameterized
by the external page fetch (`fetch page perPage` is the response to one
request) and by fuel for the unbounded `loop`.  Returns the accumulated
runs together with the number of page requests issued.  Faithful structure:
stop before requesting when the remaining count `n` is `0`
(`main.rs:199-201`); request size `min(100, n)` (`main.rs:203-206`); stop
after a request that returns no items (`main.rs:217-220`); otherwise
decrement `n` by the page's length as a `u32` (`main.rs:222-224`) and move
to the next page number (`main.rs:225`). -/
def retrieve_runs (fetch : Nat → Nat → List Nat) : Nat → Nat → Nat → List Nat × Nat
  | 0, _, _ => ([], 0)
  | fuel + 1, n, page =>
    if n = 0 then ([], 0)
    else
      let perPage := if n ≤ 100 then n else 100
      let items := fetch page perPage
      if items.length = 0 then ([], 1)
      else
        let r := retrieve_runs fetch fuel (sub32 n items.length) (page + 1)
        (items ++ r.1, r.2 + 1)

/-- Below `10 ^ 16` (at most 16 decimal digits, hence at most 16 hex
digits) the `u64` parse cannot overflow, so `from_hex64` is exactly the
decimal-read-as-hex value. -/
theorem from_hex64_eq {id : Nat} (h : id < 10 ^ 16) : from_hex64 id = decimalAsHex id := by
  unfold from_hex64
  rw [hexVal_decDigits_eq]
  have hlt : decimalAsHex id < 16 ^ 16 := decimalAsHex_lt_of_lt h
  rw [if_pos (by calc decimalAsHex id < 16 ^ 16 := hlt
        _ ≤ 2 ^ 64 := by norm_num)]

/-- Below `10 ^ 32` the `u128` parse cannot overflow. -/
theorem from_hex128_eq {id : Nat} (h : id < 10 ^ 32) : from_hex128 id = decimalAsHex id := by
  unfold from_hex128
  rw [hexVal_decDigits_eq]
  have hlt : decimalAsHex id < 16 ^ 32 := decimalAsHex_lt_of_lt h
  rw [if_pos (by calc decimalAsHex id < 16 ^ 32 := hlt
        _ ≤ 2 ^ 128 := by norm_num)]

/-- The `last_end_time` fold is the `max`-fold over the present completion
times. -/
theorem last_end_time_foldl : ∀ (jobs : List Job) (a : Nat),
    jobs.foldl
      (fun acc j =>
        match j.completedAt with
        | some c => if acc < c then c else acc
        | none => acc)
      a
    = (jobs.filterMap Job.completedAt).foldl max a := by
  intro jobs
  induction jobs with
  | nil => intro a; rfl
  | cons j js ih =>
    intro a
    cases hc : j.completedAt with
    | none => simp [List.foldl_cons, List.filterMap_cons, hc, ih]
    | some c =>
      have hmax : (if a < c then c else a) = max a c := by split <;> omega
      simp [List.foldl_cons, List.filterMap_cons, hc, hmax, ih]

theorem foldl_max_max : ∀ (l : List Nat) (a b : Nat),
    l.foldl max (max a b) = max a (l.foldl max b) := by
  intro l
  induction l with
  | nil => intro a b; rfl
  | cons x xs ih =>
    intro a b
    simp only [List.foldl_cons]
    rw [max_assoc, ih]

/-- A job with a start time always yields a span, whose trace id is derived
from the run's id. -/
theorem buildJobSpan_ok (runId : Nat) (j : Job) (st : Nat) (hst : j.startedAt = some st) :
    ∃ s, buildJobSpan runId j = Except.ok s ∧ s.traceId = traceIdOf runId := by
  unfold buildJobSpan
  rw [hst]
  exact ⟨_, rfl, rfl⟩

/-- When every job of a run has a start time, span construction succeeds,
with one span per job, all sharing the run-derived trace id. -/
theorem buildJobSpans_ok (runId : Nat) : ∀ (jobs : List Job),
    (∀ j ∈ jobs, j.startedAt ≠ none) →
    ∃ spans, buildJobSpans runId jobs = Except.ok spans ∧
      spans.length = jobs.length ∧ ∀ s ∈ spans, s.traceId = traceIdOf runId := by
  intro jobs
  induction jobs with
  | nil => intro _; exact ⟨[], rfl, rfl, by simp⟩
  | cons j js ih =>
    intro h
    have hj : j.startedAt ≠ none := h j (List.mem_cons_self j js)
    obtain ⟨st, hst⟩ := Option.ne_none_iff_exists'.mp hj
    obtain ⟨s, hs, hstr⟩ := buildJobSpan_ok runId j st hst
    obtain ⟨spans, hspans, hlen, htr⟩ := ih (fun x hx => h x (List.mem_cons_of_mem j hx))
    refine ⟨s :: spans, ?_, by simp [hlen], ?_⟩
    · simp only [buildJobSpans, hs, hspans, Except.bind]
      rfl
    · intro x hx
      rcases List.mem_cons.mp hx with rfl | hx
      · exact hstr
      · exact htr x hx

/-- The run span always builds (a `Run` serializes to a JSON object), and
carries the run-derived trace id and the reconciled end time. -/
theorem buildRunSpan_ok (run : Run) (jobs : List Job) :
    ∃ s, buildRunSpan run jobs = Except.ok s ∧ s.traceId = traceIdOf run.id ∧
      s.endTime = some (last_end_time run jobs) := by
  unfold buildRunSpan
  exact ⟨_, rfl, rfl, rfl⟩

/-- Claim C1, counterexample: at id 10 the program's span identifier is the
big-endian encoding of 16 (the decimal string of 10 re-read as hexadecimal),
not of the numeric id 10 itself, so the claimed fixed-width big-endian
encoding of the id is not what the code computes. -/
theorem spanIdOf_ten_ne_bigendian_ten : spanIdOf 10 ≠ spanIdSpec 10 := by decide

/-- Claim C1, amended: for every id whose decimal form fits the target
width (16 hex digits for span ids, 32 for trace ids), the identifier is the
fixed-width big-endian encoding of the value obtained by re-reading the
id's decimal digit string as hexadecimal — precisely the reinterpretation
the claim says the codec avoids. -/
theorem spanId_traceId_decimal_as_hex (id : Nat) :
    (id < 10 ^ 16 → spanIdOf id = bytesBE 8 (decimalAsHex id)) ∧
    (id < 10 ^ 32 → traceIdOf id = bytesBE 16 (decimalAsHex id)) := by
  constructor
  · intro h
    unfold spanIdOf
    rw [from_hex64_eq h]
  · intro h
    unfold traceIdOf
    rw [from_hex128_eq h]

/-- Claim C1, witness for the amended theorem at id 12345. -/
theorem spanId_traceId_decimal_as_hex_witness :
    spanIdOf 12345 = bytesBE 8 (decimalAsHex 12345) ∧
    traceIdOf 12345 = bytesBE 16 (decimalAsHex 12345) :=
  ⟨(spanId_traceId_decimal_as_hex 12345).1 (by norm_num),
   (spanId_traceId_decimal_as_hex 12345).2 (by norm_num)⟩

/-- Claim C2, counterexample: encoding the reserved id 0 does not fail —
`from_hex` has no error path (`unwrap_or(0)`), so the program produces the
all-zero 8-byte span identifier for id 0. -/
theorem spanIdOf_zero_all_zero : spanIdOf 0 = List.replicate 8 0 := by decide

/-- Claim C2, amended: encoding id 0 succeeds and yields exactly the
reserved all-zero span and trace identifiers (no `InvalidIdentifier`
error exists anywhere in the code). -/
theorem encode_zero_yields_all_zero :
    spanIdOf 0 = List.replicate 8 0 ∧ traceIdOf 0 = List.replicate 16 0 := by decide

/-- Claim C3, confirmed: identifier derivation is deterministic (a pure
function of the id) and injective on ids 1..100000 — distinct ids in that
range give distinct span identifiers and distinct trace identifiers,
because a number's decimal digit string is unique and re-reading digit
strings over 0..9 as hexadecimal is injective, with no `u64`/`u128`
overflow in this range. -/
theorem ids_deterministic_injective (a b : Nat) (ha1 : 1 ≤ a) (ha2 : a ≤ 100000)
    (hb1 : 1 ≤ b) (hb2 : b ≤ 100000) (hab : a ≠ b) :
    (spanIdOf a = spanIdOf a ∧ traceIdOf a = traceIdOf a) ∧
    spanIdOf a ≠ spanIdOf b ∧ traceIdOf a ≠ traceIdOf b := by
  have h16 : (10 : Nat) ^ 16 = 10000000000000000 := by norm_num
  have h32 : (10 : Nat) ^ 32 = 100000000000000000000000000000000 := by norm_num
  have ha16 : a < 10 ^ 16 := by omega
  have hb16 : b < 10 ^ 16 := by omega
  have ha32 : a < 10 ^ 32 := by omega
  have hb32 : b < 10 ^ 32 := by omega
  have hpow8 : (16 : Nat) ^ 16 = 256 ^ 8 := by norm_num
  have hpow16 : (16 : Nat) ^ 32 = 256 ^ 16 := by norm_num
  refine ⟨⟨rfl, rfl⟩, ?_, ?_⟩
  · intro h
    unfold spanIdOf at h
    rw [from_hex64_eq ha16, from_hex64_eq hb16] at h
    have hlta : decimalAsHex a < 256 ^ 8 := hpow8 ▸ decimalAsHex_lt_of_lt ha16
    have hltb : decimalAsHex b < 256 ^ 8 := hpow8 ▸ decimalAsHex_lt_of_lt hb16
    exact hab (decimalAsHex_inj (by omega) (by omega) (bytesBE_inj hlta hltb h))
  · intro h
    unfold traceIdOf at h
    rw [from_hex128_eq ha32, from_hex128_eq hb32] at h
    have hlta : decimalAsHex a < 256 ^ 16 := hpow16 ▸ decimalAsHex_lt_of_lt ha32
    have hltb : decimalAsHex b < 256 ^ 16 := hpow16 ▸ decimalAsHex_lt_of_lt hb32
    exact hab (decimalAsHex_inj (by omega) (by omega) (bytesBE_inj hlta hltb h))

/-- Claim C3, witness at ids 1 and 2. -/
theorem ids_deterministic_injective_witness :
    (spanIdOf 1 = spanIdOf 1 ∧ traceIdOf 1 = traceIdOf 1) ∧
    spanIdOf 1 ≠ spanIdOf 2 ∧ traceIdOf 1 ≠ traceIdOf 2 :=
  ids_deterministic_injective 1 2 (by norm_num) (by norm_num) (by norm_num)
    (by norm_num) (by norm_num)

/-- Claim C5, counterexample: a run created at time 100 with one job
completed at time 50 has effective end 100 in the code (the accumulator
starts at `created_at` and only strictly larger completion times replace
it), while the claim's rule (maximum `completedAt` among completed jobs)
gives 50. -/
theorem effectiveEnd_ne_max_completed :
    effectiveEnd ⟨1, ("r"), 100⟩ [⟨1, ("j"), ("completed"), some 40, some 50⟩] = 100 ∧
    effectiveEndClaimed ⟨1, ("r"), 100⟩ [⟨1, ("j"), ("completed"), some 40, some 50⟩] = 50 ∧
    effectiveEnd ⟨1, ("r"), 100⟩ [⟨1, ("j"), ("completed"), some 40, some 50⟩] ≠
      effectiveEndClaimed ⟨1, ("r"), 100⟩ [⟨1, ("j"), ("completed"), some 40, some 50⟩] := by
  refine ⟨rfl, rfl, by decide⟩

/-- Claim C5, amended: the effective end time is the maximum of the run's
`createdAt` and all present `completedAt` values — it equals the claimed
maximum `completedAt` whenever some job completes no earlier than
`createdAt`, and equals `createdAt` when no job has completed. -/
theorem effectiveEnd_eq_max_createdAt (run : Run) (jobs : List Job) :
    effectiveEnd run jobs = max run.createdAt (effectiveEndClaimed run jobs) := by
  unfold effectiveEnd last_end_time effectiveEndClaimed
  rw [last_end_time_foldl]
  cases h : jobs.filterMap Job.completedAt with
  | nil => simp
  | cons t ts =>
    simp only [List.foldl_cons]
    exact foldl_max_max ts run.createdAt t

/-- Claim C4, counterexample: against a source holding exactly 120 runs,
with desired count 250, the loop issues 3 page requests, not 2 — after the
short second page (20 items) the remaining count is still 130, so a third
request is made and returns an empty page. -/
theorem retrieve_runs_120_not_two_requests :
    (retrieve_runs (pageSlice (List.range 120)) 10 250 1).2 ≠ 2 := by decide

set_option maxRecDepth 100000 in
/-- Claim C4, amended: pages are requested sequentially with size
`min(100, remaining)` and the loop stops when the remaining count reaches
zero or a page comes back empty; against a source of exactly 120 runs with
desired count 250 it returns all 120 runs using exactly 3 page requests
(100 items, then 20 items, then an empty page). -/
theorem retrieve_runs_120_three_requests :
    retrieve_runs (pageSlice (List.range 120)) 10 250 1 = (List.range 120, 3) := by decide

/-- Claim C6 (code bug): a fetched job whose `started_at` is absent is not
skipped — `job.started_at.unwrap()` at `main.rs:150` panics, aborting the
whole workflow task instead of continuing with the remaining jobs. -/
theorem process_workflow_panics_on_missing_start :
    process_workflow (fun _ => Except.ok [⟨5, ("job"), ("queued"), none, none⟩])
      [⟨7, ("r"), 0⟩] = Except.error Panic.unwrapNone := rfl

/-- The record `{"a": 1, "b": null, "c": [1,2,3]}` of the claim. -/
def jsonABC : J :=
  J.obj [(("a"), J.num 1), (("b"), J.null), (("c"), J.arr [J.num 1, J.num 2, J.num 3])]

/-- What `value_to_vec` actually produces for `jsonABC`. -/
def attrsABC : List (String × String) :=
  [(("a"), ("1")), (("b"), ("null")), (("c"), ("[1,2,3]"))]

/-- Claim C7, counterexample: on `{"a": 1, "b": null, "c": [1,2,3]}` the
code emits an attribute for the null field `b` (valued `"null"`), renders
the list field `c` as `"[1,2,3]"` rather than the claimed comma-joined
`"1,2,3"`, and emits three attributes, not the claimed two. -/
theorem value_to_vec_null_and_list_fields :
    value_to_vec jsonABC = Except.ok attrsABC ∧
    (("b"), ("null")) ∈ attrsABC ∧
    ¬ (("c"), ("1,2,3")) ∈ attrsABC ∧
    ¬ attrsABC.length = 2 :=
  ⟨rfl, by decide, by decide, by decide⟩

/-- Claim C7, amended: every field, null fields included, contributes one
attribute whose value is the field's compact JSON serialization; in
particular `{"a": 1, "b": null, "c": [1,2,3]}` yields exactly
`a="1"`, `b="null"` and `c="[1,2,3]"`. -/
theorem value_to_vec_renders_compact_json :
    value_to_vec jsonABC =
      Except.ok [(("a"), ("1")), (("b"), ("null")), (("c"), ("[1,2,3]"))] := rfl

/-- Claim C8, confirmed: a failed job fetch makes the run contribute zero
spans and processing continues with the next run; a run whose fetch
succeeds with jobs that all have start times contributes one span per job
plus one run span, all sharing the trace id derived from that run's id,
and the whole batch still succeeds. -/
theorem process_workflow_isolates (fetchJobs : Run → Except Unit (List Job))
    (runA runB : Run) (jobsA : List Job)
    (hA : fetchJobs runA = Except.ok jobsA)
    (hstarted : ∀ j ∈ jobsA, j.startedAt ≠ none)
    (hB : fetchJobs runB = Except.error ()) :
    ∃ spans, process_workflow fetchJobs [runB, runA] = Except.ok spans ∧
      spans.length = jobsA.length + 1 ∧
      ∀ s ∈ spans, s.traceId = traceIdOf runA.id := by
  obtain ⟨jspans, hj, hlen, htr⟩ := buildJobSpans_ok runA.id jobsA hstarted
  obtain ⟨rs, hrs, hrst, _⟩ := buildRunSpan_ok runA jobsA
  refine ⟨jspans ++ [rs], ?_, by simp [hlen], ?_⟩
  · have hstep : process_workflow fetchJobs [runB, runA] = process_workflow fetchJobs [runA] := by
      simp only [process_workflow, hB]
    rw [hstep]
    simp only [process_workflow, hA, hj, hrs]
    show Except.ok (jspans ++ [rs] ++ []) = Except.ok (jspans ++ [rs])
    rw [List.append_nil]
  · intro s hs
    rcases List.mem_append.mp hs with h | h
    · exact htr s h
    · rw [List.mem_singleton.mp h]
      exact hrst

/-- Run A of the scenario: three completed jobs. -/
def jobsScenA : List Job :=
  [⟨11, ("build"), ("completed"), some 5, some 9⟩,
   ⟨12, ("test"), ("completed"), some 6, some 12⟩,
   ⟨13, ("deploy"), ("completed"), some 7, some 15⟩]

/-- Run A of the scenario. -/
def runScenA : Run := ⟨1, ("A"), 3⟩

/-- Run B of the scenario (its job listing fails). -/
def runScenB : Run := ⟨2, ("B"), 4⟩

/-- Job fetcher of the scenario: succeeds for run A, fails for run B. -/
def fetchScen : Run → Except Unit (List Job) :=
  fun r => if r.id = 1 then Except.ok jobsScenA else Except.error ()

/-- Claim C8, witness: the specification's scenario — run B's job listing
fails, run A has 3 completed jobs — emits 4 spans sharing run A's trace id
and the batch succeeds. -/
theorem process_workflow_isolates_witness :
    ∃ spans, process_workflow fetchScen [runScenB, runScenA] = Except.ok spans ∧
      spans.length = jobsScenA.length + 1 ∧
      ∀ s ∈ spans, s.traceId = traceIdOf runScenA.id :=
  process_workflow_isolates fetchScen runScenA runScenB jobsScenA rfl (by decide) rfl

/-- Claim C9, counterexample: on a bare scalar, `value_to_vec` does not
return a recoverable error — `value.as_object().unwrap()` at `main.rs:236`
panics (modelled as `Panic.unwrapNone`), crashing the calling task; no
`UnsupportedRecordShape` error exists in the code. -/
theorem value_to_vec_scalar_panics :
    value_to_vec (J.num 1) = Except.error Panic.unwrapNone := rfl

/-- Claim C9, amended: for every input that is not an object at the top
level (a bare scalar or a list), `value_to_vec` panics via `unwrap` on
`None` rather than returning a recoverable error. -/
theorem value_to_vec_non_object_panics (v : J) (h : ∀ fs, v ≠ J.obj fs) :
    value_to_vec v = Except.error Panic.unwrapNone := by
  cases v with
  | obj fs => exact absurd rfl (h fs)
  | null => rfl
  | bool b => rfl
  | num i => rfl
  | str s => rfl
  | arr xs => rfl

/-- Claim C9, witness at the empty list value. -/
theorem value_to_vec_non_object_panics_witness :
    value_to_vec (J.arr []) = Except.error Panic.unwrapNone :=
  value_to_vec_non_object_panics (J.arr []) (fun _ h => J.noConfusion h)

set_option maxRecDepth 100000 in
/-- Claim C10, confirmed: the remaining-count decrement at `main.rs:223`
has no underflow guard.  When a page holds at most the requested
`min(100, remaining)` items the wrapping subtraction is the true
subtraction; but a page with more items than remain requested wraps the
32-bit counter around (the "remaining" count jumps above its previous
value), and concretely a source whose pages always hold 200 items makes
the loop with desired count 50 keep paging (5 requests and 1000 returned
runs within fuel 5) instead of stopping. -/
theorem retrieve_runs_unguarded_decrement :
    (∀ n len, n < 2 ^ 32 → len ≤ min 100 n → sub32 n len = n - len) ∧
    (∀ n len, n < 2 ^ 32 → len < 2 ^ 32 → n < len →
      sub32 n len = 2 ^ 32 + n - len ∧ n < sub32 n len) ∧
    (retrieve_runs (fun _ _ => List.replicate 200 0) 5 50 1).2 = 5 ∧
    (retrieve_runs (fun _ _ => List.replicate 200 0) 5 50 1).1.length = 1000 := by
  refine ⟨?_, ?_, by decide, by decide⟩
  · intro n len hn hlen
    unfold sub32
    have h1 : len ≤ n := le_trans hlen (min_le_right 100 n)
    have h2 : len % 2 ^ 32 = len := Nat.mod_eq_of_lt (by omega)
    rw [h2]
    omega
  · intro n len hn hlen hnl
    unfold sub32
    have h2 : len % 2 ^ 32 = len := Nat.mod_eq_of_lt hlen
    rw [h2]
    constructor <;> omega

/-- Claim C10, witness: a guarded step (50 remaining, 30 received) truly
subtracts, and an oversized page (50 remaining, 200 received) underflows
the counter upward. -/
theorem retrieve_runs_unguarded_decrement_witness :
    sub32 50 30 = 50 - 30 ∧ (sub32 50 200 = 2 ^ 32 + 50 - 200 ∧ 50 < sub32 50 200) :=
  ⟨retrieve_runs_unguarded_decrement.1 50 30 (by norm_num) (by norm_num),
   retrieve_runs_unguarded_decrement.2.1 50 200 (by norm_num) (by norm_num) (by norm_num)⟩
